import Mathlib

/-!
Verification development for the four-tier operations-agent system
(master agent / sub-agent dispatcher / workflow engine / skill executor),
translated from the Python sources in `app/layers/`.

Modelling conventions, chosen once for the whole file:

* Python `dict`s become ordered association lists over `String` keys
  (`Ctx`), with `dset` / `dupdate` mirroring Python item assignment and
  `dict.update` (overwrite in place, append new keys at the end).
* Dictionary values become the inductive type `Val`; Python truthiness
  is `Val.truthy`.
* `datetime` timestamps and millisecond durations are not modelled: no
  control flow in the source depends on them.
* `uuid` identifiers become deterministic fresh counters stored in each
  component's state ("exec-n", "task-n", "session-n"); the source only
  ever compares identifiers for equality and map lookup.
* The skill executor never raises: `SkillExecutor.execute` catches all
  exceptions and returns a `SkillExecution` record.  The workflow engine
  receives the executor via its constructor, so it is modelled as a
  function parameter `se : SkillExec` (skill id and merged parameters in,
  status / output / error out).
* The regex-based entity extractor `MasterAgent._extract_entities` is
  modelled as a function parameter `ee : EntityExtract`; both `process`
  and `preview` apply it to the raw user input, exactly as the source
  calls the same method from both entry points.
* Python `while` loops over the workflow graph become fuel-indexed
  structural recursion; a `none` result means the loop did not finish
  within the given fuel (the source loops forever there).
* Python aliasing (a task holds the same `WorkflowExecution` objects the
  engine registers in `self.executions`) is modelled by storing execution
  ids in the task and reading through the engine's execution store;
  executions the engine never registers (the unknown-workflow error
  value) are absent from the store, and every reader of such an object
  in the source only skips it, which the id-based reading reproduces.
-/

/-- An exact non-negative fraction, standing in for the Python floats
this system computes with (intent scores, impact estimates).  Fractions
are never normalized; order and arithmetic work by cross-multiplication,
so every operation is plain `Nat` arithmetic. -/
structure Frac where
  num : Nat
  den : Nat
  deriving DecidableEq, Repr, Inhabited

/-- Strict order on fractions (`a < b`). -/
def Frac.lt (a b : Frac) : Bool := a.num * b.den < b.num * a.den

/-- Fraction addition. -/
def Frac.add (a b : Frac) : Frac := ⟨a.num * b.den + b.num * a.den, a.den * b.den⟩

/-- Fraction multiplication. -/
def Frac.mul (a b : Frac) : Frac := ⟨a.num * b.num, a.den * b.den⟩

/-- Python's `min(x, 1.0)`. -/
def Frac.minOne (a : Frac) : Frac := if Frac.lt ⟨1, 1⟩ a then ⟨1, 1⟩ else a

/-- Values stored in the string-keyed dictionaries threaded through the
system (contexts, entities, node outputs).  Python floats and ints are
both modelled as exact fractions (ints carry denominator 1). -/
inductive Val where
  | vstr  (s : String)
  | vnum  (q : Frac)
  | vbool (b : Bool)
  | vlist (l : List Val)
  | vdict (l : List (String × Val))
  | vnone
  deriving Inhabited

/-- Python truthiness for `Val` (used by `if entities.get(...)`). -/
def Val.truthy : Val → Bool
  | .vstr s  => !s.isEmpty
  | .vnum q  => !(q.num == 0)
  | .vbool b => b
  | .vlist l => !l.isEmpty
  | .vdict l => !l.isEmpty
  | .vnone   => false

/-- A Python `dict` with string keys: ordered association list with
unique keys. -/
abbrev Ctx : Type := List (String × Val)

/-- `d.get(k)` on a Python dict: first (and only) binding of `k`. -/
def dget {α : Type} : List (String × α) → String → Option α
  | [], _ => none
  | (k, v) :: rest, key => if k = key then some v else dget rest key

/-- `d[k] = v` on a Python dict: overwrite in place, else append. -/
def dset {α : Type} : List (String × α) → String → α → List (String × α)
  | [], key, v => [(key, v)]
  | (k, w) :: rest, key, v =>
      if k = key then (k, v) :: rest else (k, w) :: dset rest key v

/-- `d.update(e)` on Python dicts. -/
def dupdate {α : Type} (d e : List (String × α)) : List (String × α) :=
  e.foldl (fun acc kv => dset acc kv.1 kv.2) d

/-- ASCII lowering of one character (`str.lower()`; the source only
lowers ASCII letters mixed into Chinese text). -/
def lowerChar (c : Char) : Char :=
  if 'A' ≤ c ∧ c ≤ 'Z' then Char.ofNat (c.toNat + 32) else c

/-- `s.lower()`. -/
def strLower (s : String) : String := String.mk (s.data.map lowerChar)

/-- Is the first list an initial segment of the second? -/
def charsPre : List Char → List Char → Bool
  | [], _ => true
  | _ :: _, [] => false
  | p :: ps, c :: cs => p == c && charsPre ps cs

/-- Does the pattern occur somewhere in the character list? -/
def charsSub : List Char → List Char → Bool
  | pat, [] => charsPre pat []
  | pat, c :: cs => charsPre pat (c :: cs) || charsSub pat cs

/-- Python's substring test `pat in s`. -/
def strContains (s pat : String) : Bool := charsSub pat.data s.data

/-- `list(dict.fromkeys(l))`: drop later duplicates, keep first
occurrences, given the keys already seen. -/
def dedupKeep (seen : List String) : List String → List String
  | [] => []
  | x :: xs => if seen.contains x then dedupKeep seen xs else x :: dedupKeep (x :: seen) xs

/-- `list(dict.fromkeys(l))`. -/
def dedupFirst (l : List String) : List String := dedupKeep [] l

/-- Comma-join of strings (`", ".join`). -/
def joinComma : List String → String
  | [] => ""
  | [x] => x
  | x :: xs => x ++ ", " ++ joinComma xs

/-- `app.models.ExecutionStatus`. -/
inductive ExecutionStatus where
  | pending
  | running
  | success
  | error
  | awaiting_approval
  | approved
  | rejected
  | paused
  | cancelled
  deriving DecidableEq, Repr, Inhabited

/-- `app.models.WorkflowNodeType`. -/
inductive WorkflowNodeType where
  | skill
  | parallel
  | condition
  | approval
  | wait
  | sub_workflow
  deriving DecidableEq, Repr, Inhabited

/-- `app.models.WorkflowNode`, restricted to the fields the engine
reads (the conditional/parallel branch fields are declared in the source
but never read by any engine code path). -/
structure WorkflowNode where
  node_id : String
  name : String := ""
  node_type : WorkflowNodeType
  skill_id : Option String := none
  skill_params : Ctx := []
  approval_roles : List String := []
  next_node : Option String := none
  on_error : Option String := none
  deriving Inhabited

/-- `app.models.Workflow` (metadata fields that nothing reads are
dropped). -/
structure Workflow where
  id : String
  name : String := ""
  display_name : String := ""
  category : String := ""
  start_node : String
  nodes : List WorkflowNode := []
  deriving Inhabited

/-- The part of `app.models.SkillExecution` the workflow engine reads
back from `SkillExecutor.execute`. -/
structure SkillRes where
  status : ExecutionStatus
  output_result : Option Ctx := none
  error : Option String := none
  deriving Inhabited

/-- The skill executor as the engine sees it: `skill_executor.execute`
called with `node.skill_id` and the merged parameter dict.  The Python
method never raises (its body is wrapped in try/except). -/
abbrev SkillExec : Type := Option String → Ctx → SkillRes

/-- `app.models.WorkflowNodeExecution` (timestamps dropped). -/
structure WorkflowNodeExecution where
  node_id : String
  node_name : String := ""
  node_type : WorkflowNodeType
  status : ExecutionStatus := .pending
  input_data : Ctx := []
  output_data : Ctx := []
  error : Option String := none
  deriving Inhabited

/-- `app.models.WorkflowExecution` (timestamps dropped). -/
structure WorkflowExecution where
  execution_id : String
  workflow_id : String
  workflow_name : String := ""
  status : ExecutionStatus := .pending
  input_params : Ctx := []
  context : Ctx := []
  output_result : Option Ctx := none
  current_node : Option String := none
  node_executions : List WorkflowNodeExecution := []
  pending_approval : Option String := none
  approved_by : Option String := none
  error : Option String := none
  deriving Inhabited

/-- The mutable state of `WorkflowEngine`: registered workflow
definitions, the execution registry `self.executions`, and the fresh-id
counter standing in for `uuid.uuid4()`. -/
structure EngineState where
  workflows : List (String × Workflow)
  executions : List (String × WorkflowExecution) := []
  efresh : Nat := 0
  deriving Inhabited

/-- `WorkflowEngine._get_node`. -/
def getNode (wf : Workflow) (node_id : String) : Option WorkflowNode :=
  wf.nodes.find? (fun n => n.node_id == node_id)

/-- `WorkflowEngine._execute_node`.  For skill nodes the skill
execution's error message is not copied into the node record (the source
only sets `node_execution.error` in its except branch, which cannot fire
because the skill executor is total); for approval nodes the status is
unconditionally AWAITING_APPROVAL; parallel / condition / wait are the
source's pass-through stubs; a sub_workflow node has no branch at all in
the source, so its record keeps the initial RUNNING status. -/
def execNode (se : SkillExec) (node : WorkflowNode) (context : Ctx) :
    WorkflowNodeExecution :=
  let base : WorkflowNodeExecution :=
    { node_id := node.node_id, node_name := node.name, node_type := node.node_type,
      status := .running, input_data := context }
  match node.node_type with
  | .skill =>
      let sr := se node.skill_id (dupdate context node.skill_params)
      { base with status := sr.status, output_data := sr.output_result.getD [] }
  | .approval =>
      { base with
        status := .awaiting_approval,
        output_data := [("approval_required", Val.vbool true),
                        ("approval_roles", Val.vlist (node.approval_roles.map Val.vstr))] }
  | .parallel => { base with status := .success }
  | .condition => { base with status := .success }
  | .wait => { base with status := .success }
  | .sub_workflow => base

/-- Outcome of the main `while current_node_id` loop of
`WorkflowEngine.execute`. -/
inductive RunOutcome where
  | done (e : WorkflowExecution)
  | failed (e : WorkflowExecution) (msg : String)
  | pausedAt (e : WorkflowExecution) (node_id : String)
  | timeout

/-- The main loop of `WorkflowEngine.execute` (lines 319-346), with
fuel.  `done` is the loop falling off (next pointer `None` or dangling),
`failed` is the `raise` on an unrecovered node error, `pausedAt` is the
early return at an approval node. -/
def runLoop (se : SkillExec) (wf : Workflow) :
    Nat → Option String → WorkflowExecution → RunOutcome
  | 0, _, _ => .timeout
  | _ + 1, none, e => .done e
  | fuel + 1, some nid, e =>
    match getNode wf nid with
    | none => .done e
    | some node =>
      let ne := execNode se node e.context
      let e1 := { e with
        current_node := some nid,
        node_executions := e.node_executions ++ [ne] }
      if node.node_type = .approval ∧ ne.status = .awaiting_approval then
        .pausedAt e1 nid
      else if ne.status = .error then
        match node.on_error with
        | some oe => runLoop se wf fuel (some oe) e1
        | none => .failed e1 (ne.error.getD "Node execution failed")
      else
        runLoop se wf fuel node.next_node
          { e1 with context := dupdate e1.context ne.output_data }

/-- The id `uuid.uuid4()` would hand the next execution. -/
def freshEid (st : EngineState) : String := "exec-" ++ toString st.efresh

/-- `self.executions[execution_id] = execution` plus the id-counter
bump. -/
def insertExec (st : EngineState) (e : WorkflowExecution) : EngineState :=
  { st with
    executions := dset st.executions e.execution_id e,
    efresh := st.efresh + 1 }

/-- The error value `execute` returns for an unknown workflow id
(lines 295-302); it is returned without being registered in
`self.executions`. -/
def notFoundExec (st : EngineState) (workflow_id : String) : WorkflowExecution :=
  { execution_id := freshEid st, workflow_id := workflow_id,
    workflow_name := "unknown", status := .error,
    error := some ("Workflow \x27" ++ workflow_id ++ "\x27 not found") }

/-- Wrapping of the loop outcome back into `execute`'s result
(lines 331-335 and 348-360): paused executions are stored and returned
as AWAITING_APPROVAL, a fallen-off loop becomes SUCCESS with the final
context as output, an escalated node error becomes ERROR with the raised
message. -/
def finishRun (st : EngineState) :
    RunOutcome → Option (WorkflowExecution × EngineState)
  | .timeout => none
  | .done e =>
      let e1 := { e with status := .success, output_result := some e.context }
      some (e1, insertExec st e1)
  | .failed e msg =>
      let e1 := { e with status := .error, error := some msg }
      some (e1, insertExec st e1)
  | .pausedAt e nid =>
      let e1 := { e with status := .awaiting_approval, pending_approval := some nid }
      some (e1, insertExec st e1)

/-- `WorkflowEngine.execute`. -/
def WorkflowEngine.execute (se : SkillExec) (st : EngineState) (fuel : Nat)
    (workflow_id : String) (params : Ctx) :
    Option (WorkflowExecution × EngineState) :=
  match dget st.workflows workflow_id with
  | none => some (notFoundExec st workflow_id, { st with efresh := st.efresh + 1 })
  | some wf =>
    let e0 : WorkflowExecution :=
      { execution_id := freshEid st, workflow_id := wf.id,
        workflow_name := wf.display_name, status := .running,
        input_params := params, context := params }
    finishRun st (runLoop se wf fuel (some wf.start_node) e0)

/-- `WorkflowEngine.get_execution`. -/
def WorkflowEngine.get_execution (st : EngineState) (execution_id : String) :
    Option WorkflowExecution :=
  dget st.executions execution_id

/-- Outcome of the resume loop inside `approve_execution`. -/
inductive ResumeOutcome where
  | finished (e : WorkflowExecution)
  | pausedAt (e : WorkflowExecution)
  | timeout

/-- The resume loop of `approve_execution` (lines 446-461).  Unlike the
main loop it has no error handling at all: any non-AWAITING node result
has its output merged and the `next` pointer followed. -/
def resumeLoop (se : SkillExec) (wf : Workflow) :
    Nat → Option String → WorkflowExecution → ResumeOutcome
  | 0, _, _ => .timeout
  | _ + 1, none, e => .finished e
  | fuel + 1, some nid, e =>
    match getNode wf nid with
    | none => .finished e
    | some node =>
      let ne := execNode se node e.context
      let e1 := { e with
        current_node := some nid,
        node_executions := e.node_executions ++ [ne] }
      if ne.status = .awaiting_approval then
        .pausedAt { e1 with status := .awaiting_approval, pending_approval := some nid }
      else
        resumeLoop se wf fuel node.next_node
          { e1 with context := dupdate e1.context ne.output_data }

/-- Lines 436-440 of `approve_execution`: mark the first node execution
of the paused approval node APPROVED and record the approver in its
output. -/
def markApproved (approved_by : String) :
    List WorkflowNodeExecution → String → List WorkflowNodeExecution
  | [], _ => []
  | ne :: rest, pa =>
    if ne.node_id = pa then
      { ne with
        status := .approved,
        output_data := dset ne.output_data "approved_by" (Val.vstr approved_by) } :: rest
    else ne :: markApproved approved_by rest pa

/-- `WorkflowEngine.approve_execution`.  The source mutates the stored
execution object in place; here every return path writes the updated
record back into the execution store under the same id.  The result is
`some (none, st)` when the source returns `None` (unknown id or not
awaiting approval), and `none` only when the resume loop runs out of
fuel. -/
def WorkflowEngine.approve_execution (se : SkillExec) (st : EngineState)
    (fuel : Nat) (execution_id : String) (approved : Bool)
    (approved_by : String := "运营总监") :
    Option (Option WorkflowExecution × EngineState) :=
  match dget st.executions execution_id with
  | none => some (none, st)
  | some ex =>
    if ex.status = .awaiting_approval then
      let ex1 := { ex with approved_by := some approved_by }
      if approved then
        match dget st.workflows ex1.workflow_id, ex1.pending_approval with
        | some wf, some pa =>
          match getNode wf pa with
          | some anode =>
            let ex2 := { ex1 with
              node_executions := markApproved approved_by ex1.node_executions pa,
              pending_approval := none }
            match resumeLoop se wf fuel anode.next_node ex2 with
            | .timeout => none
            | .pausedAt e =>
                some (some e, { st with executions := dset st.executions execution_id e })
            | .finished e =>
                let e1 := { e with status := .success, output_result := some e.context }
                some (some e1, { st with executions := dset st.executions execution_id e1 })
          | none =>
            let e1 := { ex1 with status := .success, output_result := some ex1.context }
            some (some e1, { st with executions := dset st.executions execution_id e1 })
        | _, _ =>
          let e1 := { ex1 with status := .success, output_result := some ex1.context }
          some (some e1, { st with executions := dset st.executions execution_id e1 })
      else
        let e1 := { ex1 with status := .rejected }
        some (some e1, { st with executions := dset st.executions execution_id e1 })
    else some (none, st)

/-- `app.models.SubAgentCapability`. -/
structure SubAgentCapability where
  name : String
  description : String := ""
  keywords : List String := []
  workflows : List String := []
  deriving Inhabited

/-- `app.models.SubAgent`, restricted to the fields the dispatcher and
master agent read. -/
structure SubAgent where
  id : String
  name : String := ""
  display_name : String := ""
  domain : String := ""
  capabilities : List SubAgentCapability := []
  available_workflows : List String := []
  available_skills : List String := []
  requires_approval_from : List String := []
  deriving Inhabited

/-- `app.models.SubAgentTask` (timestamps dropped).  The
`workflow_executions` list stores execution ids: the Python list holds
the very objects registered in the engine's execution store, and the
ids are how that aliasing is read back here.  `result` models the dict
`{"workflows_executed": ..., "context": ...}`. -/
structure SubAgentTask where
  task_id : String
  agent_id : String
  agent_name : String
  instruction : String
  context : Ctx := []
  planned_workflows : List String := []
  workflow_executions : List String := []
  status : ExecutionStatus := .pending
  result : Option (Nat × Ctx) := none
  error : Option String := none
  deriving Inhabited

/-- The mutable state of `SubAgentManager`: the engine it drives, the
agent registry, the task registry, and the fresh-id counter. -/
structure ManagerState where
  engine : EngineState
  agents : List (String × SubAgent) := []
  tasks : List (String × SubAgentTask) := []
  tfresh : Nat := 0
  deriving Inhabited

/-- `SubAgentManager._plan_workflows`: union of the workflow lists of
every capability with at least one keyword occurring in the lowered
instruction, deduplicated keeping first occurrences.  (The source also
receives the context argument but never reads it.) -/
def planWorkflows (agent : SubAgent) (instruction : String) : List String :=
  let instruction_lower := strLower instruction
  dedupFirst (agent.capabilities.foldl
    (fun planned cap =>
      if cap.keywords.any (fun kw => strContains instruction_lower kw) then
        planned ++ cap.workflows
      else planned) [])

/-- `SubAgentManager.create_task`.  An unknown agent id yields an ERROR
task that is returned without being stored. -/
def SubAgentManager.create_task (st : ManagerState) (agent_id : String)
    (instruction : String) (context : Ctx := []) : SubAgentTask × ManagerState :=
  match dget st.agents agent_id with
  | none =>
    ({ task_id := "task-" ++ toString st.tfresh, agent_id := agent_id,
       agent_name := "unknown", instruction := instruction, status := .error,
       error := some ("Agent \x27" ++ agent_id ++ "\x27 not found") },
     { st with tfresh := st.tfresh + 1 })
  | some agent =>
    let task : SubAgentTask :=
      { task_id := "task-" ++ toString st.tfresh, agent_id := agent.id,
        agent_name := agent.display_name, instruction := instruction,
        context := context, status := .pending,
        planned_workflows := planWorkflows agent instruction }
    (task, { st with
             tasks := dset st.tasks task.task_id task,
             tfresh := st.tfresh + 1 })

/-- The `for workflow_id in task.planned_workflows` loop of
`execute_task` (lines 283-294).  The Boolean reports whether the loop
returned early because a workflow paused for approval.  Note the source
merges `output_result` into the task context only when truthy; merging
an empty dict is the identity, so the `some` case covers both. -/
def runPlanned (se : SkillExec) (fuel : Nat) :
    List String → SubAgentTask → EngineState →
    Option (SubAgentTask × EngineState × Bool)
  | [], t, es => some (t, es, false)
  | wid :: rest, t, es =>
    match WorkflowEngine.execute se es fuel wid t.context with
    | none => none
    | some (wexec, es1) =>
      let t1 := { t with
                  workflow_executions := t.workflow_executions ++ [wexec.execution_id] }
      if wexec.status = .awaiting_approval then
        some ({ t1 with status := .awaiting_approval }, es1, true)
      else
        let t2 := match wexec.output_result with
          | some out => { t1 with context := dupdate t1.context out }
          | none => t1
        runPlanned se fuel rest t2 es1

/-- `SubAgentManager.execute_task`.  A task paused by one of its
workflows is left AWAITING_APPROVAL; otherwise every planned workflow is
run (workflow-level ERROR does not stop the loop) and the task ends
SUCCESS with `result = {"workflows_executed": ..., "context": ...}`.
An unknown task id yields an unstored ERROR task. -/
def SubAgentManager.execute_task (se : SkillExec) (fuel : Nat)
    (st : ManagerState) (task_id : String) :
    Option (SubAgentTask × ManagerState) :=
  match dget st.tasks task_id with
  | none =>
    some ({ task_id := task_id, agent_id := "unknown", agent_name := "unknown",
            instruction := "", status := .error,
            error := some ("Task \x27" ++ task_id ++ "\x27 not found") }, st)
  | some task =>
    let task1 := { task with status := .running }
    match runPlanned se fuel task1.planned_workflows task1 st.engine with
    | none => none
    | some (t, es, pausedEarly) =>
      if pausedEarly then
        some (t, { st with engine := es, tasks := dset st.tasks task_id t })
      else
        let t1 := { t with
                    status := .success,
                    result := some (t.workflow_executions.length, t.context) }
        some (t1, { st with engine := es, tasks := dset st.tasks task_id t1 })

/-- The `for workflow_exec in task.workflow_executions` loop of
`approve_task` (lines 329-335): resolve every execution of the task that
is currently AWAITING_APPROVAL, threading the engine store so that each
resolution is visible to the later reads (the source reads the aliased
objects it mutated). -/
def approveAwaiting (se : SkillExec) (fuel : Nat) (approved : Bool)
    (approved_by : String) : List String → EngineState → Option EngineState
  | [], es => some es
  | eid :: rest, es =>
    match dget es.executions eid with
    | some ex =>
      if ex.status = .awaiting_approval then
        match WorkflowEngine.approve_execution se es fuel eid approved approved_by with
        | none => none
        | some (_, es1) => approveAwaiting se fuel approved approved_by rest es1
      else approveAwaiting se fuel approved approved_by rest es
    | none => approveAwaiting se fuel approved approved_by rest es

/-- `SubAgentManager.approve_task`.  The result is `some (none, st)`
when the source returns `None` (unknown task or task not awaiting
approval).  On approval the source re-enters `execute_task(task_id)`
wholesale. -/
def SubAgentManager.approve_task (se : SkillExec) (fuel : Nat)
    (st : ManagerState) (task_id : String) (approved : Bool)
    (approved_by : String := "运营总监") :
    Option (Option SubAgentTask × ManagerState) :=
  match dget st.tasks task_id with
  | none => some (none, st)
  | some task =>
    if task.status = .awaiting_approval then
      match approveAwaiting se fuel approved approved_by task.workflow_executions st.engine with
      | none => none
      | some es1 =>
        let st1 := { st with engine := es1 }
        if approved then
          match SubAgentManager.execute_task se fuel st1 task_id with
          | none => none
          | some (t, st2) => some (some t, st2)
        else
          let t1 := { task with status := .rejected }
          some (some t1, { st1 with tasks := dset st1.tasks task_id t1 })
    else some (none, st)

/-- `app.models.IntentAnalysis`. -/
structure IntentAnalysis where
  original_input : String
  intent_type : String
  confidence : Frac := ⟨0, 1⟩
  entities : Ctx := []
  required_agents : List String := []
  suggested_workflows : List String := []
  deriving Inhabited

/-- One entry of `ExecutionPlan.agent_tasks`: the dict
`{agent_id, agent_name, instruction, priority, dependencies}` built by
`_create_execution_plan`. -/
structure AgentTaskCfg where
  agent_id : String
  agent_name : String
  instruction : String
  priority : Nat
  dependencies : List String := []
  deriving Inhabited

/-- `app.models.ExecutionPlan` (creation timestamp and the never-used
`sync_points` dropped). -/
structure ExecutionPlan where
  plan_id : String
  intent : IntentAnalysis
  agent_tasks : List AgentTaskCfg := []
  execution_order : List (List String) := []
  approval_points : List String := []
  deriving Inhabited

/-- `app.models.MasterAgentSession` (timestamps dropped).  The
`agent_tasks` list stores task ids, read back through the manager's task
store, mirroring the aliasing of the Python task objects. -/
structure MasterAgentSession where
  session_id : String
  user_input : String
  intent_analysis : Option IntentAnalysis := none
  execution_plan : Option ExecutionPlan := none
  agent_tasks : List String := []
  status : ExecutionStatus := .pending
  final_result : Option String := none
  summary : Option String := none
  pending_approvals : List String := []
  deriving Inhabited

/-- The mutable state of `MasterAgent`: the sub-agent manager it drives,
the session registry, and the fresh-id counter. -/
structure MasterState where
  mgr : ManagerState
  sessions : List (String × MasterAgentSession) := []
  sfresh : Nat := 0
  deriving Inhabited

/-- One entry of `MasterAgent.INTENT_PATTERNS`. -/
structure IntentCfg where
  keywords : List String
  required_agents : List String
  optional_agents : List String := []
  deriving Inhabited

/-- `MasterAgent.INTENT_PATTERNS`, in source order. -/
def INTENT_PATTERNS : List (String × IntentCfg) :=
  [("product_launch",
    { keywords := ["上市", "新品", "发布", "推出", "首发", "上线新"],
      required_agents := ["product-agent"],
      optional_agents := ["pricing-agent", "marketing-agent"] }),
   ("menu_config",
    { keywords := ["菜品", "菜单", "新增菜", "添加菜", "配置菜"],
      required_agents := ["product-agent"] }),
   ("price_adjust",
    { keywords := ["涨价", "降价", "调价", "价格调整", "定价"],
      required_agents := ["pricing-agent"] }),
   ("campaign_setup",
    { keywords := ["活动", "促销", "满减", "优惠", "打折", "折扣"],
      required_agents := ["marketing-agent"] }),
   ("report_gen",
    { keywords := ["报告", "报表", "周报", "月报", "分析", "统计"],
      required_agents := ["analytics-agent"] }),
   ("inventory_check",
    { keywords := ["库存", "盘点", "备货", "缺货"],
      required_agents := ["supply-chain-agent"] }),
   ("clearance_sale",
    { keywords := ["清仓", "临期", "过期", "处理库存", "库存清理"],
      required_agents := ["supply-chain-agent", "pricing-agent"],
      optional_agents := ["marketing-agent"] }),
   ("seasonal_launch",
    { keywords := ["季节", "限定", "夏季", "冬季", "春季", "秋季", "节日"],
      required_agents := ["product-agent", "marketing-agent"],
      optional_agents := ["pricing-agent"] })]

/-- Accumulator of the intent-scoring loop in `_analyze_intent`
(lines 319-333). -/
structure IntentPick where
  intent_type : String := "unknown"
  confidence : Frac := ⟨0, 1⟩
  required_agents : List String := []
  optional_agents : List String := []
  deriving Inhabited

/-- The intent-scoring loop of `_analyze_intent`: for each pattern with
at least one keyword hit, the score is hits divided by keyword count,
and a strictly greater score replaces the pick (ties keep the earlier
pattern). -/
def pickIntent (input_lower : String) : IntentPick :=
  INTENT_PATTERNS.foldl (fun acc p =>
    let hits := (p.2.keywords.filter (fun kw => strContains input_lower kw)).length
    if 0 < hits then
      let score : Frac := ⟨hits, p.2.keywords.length⟩
      if Frac.lt acc.confidence score then
        { intent_type := p.1, confidence := score,
          required_agents := p.2.required_agents,
          optional_agents := p.2.optional_agents }
      else acc
    else acc) {}

/-- `entities.get(key)` under Python truthiness. -/
def truthyGet (entities : Ctx) (key : String) : Bool :=
  match dget entities key with
  | some v => v.truthy
  | none => false

/-- The regex-based `MasterAgent._extract_entities`, as an abstract
function of the input text. -/
abbrev EntityExtract : Type := String → Ctx

/-- `MasterAgent._analyze_intent`: score intents, extract entities, pull
in the pricing agent when a price entity is truthy and the marketing
agent when a discount entity is truthy, collect the matched agents'
available workflows (deduplicated), and lift confidence by 0.3 capped
at 1. -/
def analyzeIntent (agents : List (String × SubAgent)) (ee : EntityExtract)
    (user_input : String) : IntentAnalysis :=
  let pick := pickIntent (strLower user_input)
  let entities := ee user_input
  let a1 := pick.required_agents
  let a2 := if truthyGet entities "price" && !(a1.contains "pricing-agent")
            then a1 ++ ["pricing-agent"] else a1
  let a3 := if truthyGet entities "discount" && !(a2.contains "marketing-agent")
            then a2 ++ ["marketing-agent"] else a2
  let suggested := dedupFirst (a3.foldl (fun acc aid =>
      match dget agents aid with
      | some agent => acc ++ agent.available_workflows
      | none => acc) [])
  { original_input := user_input, intent_type := pick.intent_type,
    confidence := Frac.minOne (Frac.add pick.confidence ⟨3, 10⟩),
    entities := entities, required_agents := a3,
    suggested_workflows := suggested }

/-- Rendering of one entity value inside the generated instruction
(Python's `str(v)`; the layout of compound values is condensed). -/
def valToStr : Val → String
  | .vstr s => s
  | .vnum q => toString q.num ++ "/" ++ toString q.den
  | .vbool b => if b then "True" else "False"
  | .vlist _ => "[...]"
  | .vdict _ => "\x7b...\x7d"
  | .vnone => "None"

/-- `MasterAgent._generate_agent_instruction` (the agent argument is
never read by the source). -/
def genInstruction (intent : IntentAnalysis) : String :=
  if intent.entities.isEmpty then intent.original_input
  else intent.original_input ++ " [实体: " ++
    joinComma (intent.entities.map (fun kv => kv.1 ++ "=" ++ valToStr kv.2)) ++ "]"

/-- `MasterAgent._create_execution_plan`.  Priorities come from the
enumeration index over `required_agents` (missing agents are skipped but
still consume an index); the approval points are the required agents
with a nonempty `requires_approval_from`.  The plan id, a `uuid4` in the
source, is taken as an argument. -/
def createExecutionPlan (agents : List (String × SubAgent)) (plan_id : String)
    (intent : IntentAnalysis) : ExecutionPlan :=
  let agent_tasks := intent.required_agents.enum.filterMap (fun p =>
    match dget agents p.2 with
    | some agent =>
        some { agent_id := p.2, agent_name := agent.display_name,
               instruction := genInstruction intent, priority := p.1 + 1,
               dependencies := [] }
    | none => none)
  { plan_id := plan_id, intent := intent, agent_tasks := agent_tasks,
    execution_order := agent_tasks.map (fun t => [t.agent_id]),
    approval_points := intent.required_agents.filter (fun aid =>
      match dget agents aid with
      | some agent => !agent.requires_approval_from.isEmpty
      | none => false) }

/-- `MasterAgent._dispatch_to_agents`: one `create_task` per plan entry,
with the extracted entities as the shared context. -/
def dispatchToAgents (st : ManagerState) (plan : ExecutionPlan)
    (entities : Ctx) : List SubAgentTask × ManagerState :=
  plan.agent_tasks.foldl (fun acc cfg =>
    let r := SubAgentManager.create_task acc.2 cfg.agent_id cfg.instruction entities
    (acc.1 ++ [r.1], r.2)) ([], st)

/-- Step 4 of `MasterAgent.process` (lines 290-296): execute each
dispatched task in order, collecting the ids of tasks that paused for
approval. -/
def runTasks (se : SkillExec) (fuel : Nat) :
    List SubAgentTask → ManagerState → List String →
    Option (ManagerState × List String)
  | [], st, pending => some (st, pending)
  | task :: rest, st, pending =>
    match SubAgentManager.execute_task se fuel st task.task_id with
    | none => none
    | some (executed, st1) =>
      if executed.status = .awaiting_approval then
        runTasks se fuel rest st1 (pending ++ [task.task_id])
      else runTasks se fuel rest st1 pending

/-- Total workflow executions across the session's tasks, read through
the task store (`sum(len(t.workflow_executions) for t in ...)`). -/
def countWorkflows (st : ManagerState) (task_ids : List String) : Nat :=
  task_ids.foldl (fun n tid =>
    match dget st.tasks tid with
    | some t => n + t.workflow_executions.length
    | none => n) 0

/-- `MasterAgent._generate_brief_summary`. -/
def genBriefSummary (intent_type : String) (nAgents nWorkflows : Nat) : String :=
  "识别意图: " ++ intent_type ++ ", 调用" ++ toString nAgents ++
    "个Agent, 执行" ++ toString nWorkflows ++ "个工作流"

/-- Condensed stand-in for `_generate_summary`: a human-readable report
whose exact multi-line layout nothing depends on. -/
def genSummary (session_id : String) : String := "执行结果摘要 " ++ session_id

/-- `MasterAgent.process`: analyze intent, build the plan, dispatch one
task per plan entry, execute them in order, and either finish SUCCESS
with summaries or park the session AWAITING_APPROVAL with the paused
task ids.  The source's try/except is dead here because every called
operation is total (the sub-agent layer catches its own errors). -/
def MasterAgent.process (se : SkillExec) (ee : EntityExtract) (fuel : Nat)
    (st : MasterState) (user_input : String) :
    Option (MasterAgentSession × MasterState) :=
  let session_id := "session-" ++ toString st.sfresh
  let ia := analyzeIntent st.mgr.agents ee user_input
  let plan := createExecutionPlan st.mgr.agents "plan" ia
  let disp := dispatchToAgents st.mgr plan ia.entities
  match runTasks se fuel disp.1 disp.2 [] with
  | none => none
  | some (mgr2, pending) =>
    let task_ids := disp.1.map (fun t => t.task_id)
    let session : MasterAgentSession :=
      if pending.isEmpty then
        { session_id := session_id, user_input := user_input,
          intent_analysis := some ia, execution_plan := some plan,
          agent_tasks := task_ids, status := .success,
          final_result := some (genSummary session_id),
          summary := some (genBriefSummary ia.intent_type task_ids.length
                             (countWorkflows mgr2 task_ids)),
          pending_approvals := [] }
      else
        { session_id := session_id, user_input := user_input,
          intent_analysis := some ia, execution_plan := some plan,
          agent_tasks := task_ids, status := .awaiting_approval,
          pending_approvals := pending }
    some (session, { mgr := mgr2,
                     sessions := dset st.sessions session_id session,
                     sfresh := st.sfresh + 1 })

/-- `MasterAgent.REGION_STORE_COUNT`. -/
def REGION_STORE_COUNT : List (String × Nat) :=
  [("全国", 2847), ("华东", 892), ("华南", 634), ("华北", 521),
   ("华中", 312), ("西南", 245), ("西北", 128), ("东北", 115)]

/-- The result of `MasterAgent._estimate_impact` (the human-oriented
duration label is kept as exact minutes). -/
structure ImpactEstimate where
  affected_stores : Nat
  affected_skus : Nat
  affected_systems : List String
  estimated_duration_minutes : Frac
  requires_approval : Bool
  approval_roles : List String
  region : String
  deriving Inhabited

/-- A numeric entity read as a count (`entities.get(key, default)`
where the source then uses the value as an int). -/
def entNat (entities : Ctx) (key : String) (dflt : Nat) : Nat :=
  match dget entities key with
  | some (.vnum q) => q.num
  | _ => dflt

/-- `entities.get("region", "全国")` read as a string. -/
def entRegion (entities : Ctx) : String :=
  match dget entities "region" with
  | some (.vstr s) => s
  | _ => "全国"

/-- The per-agent system sets of `_estimate_impact` (the source builds a
Python set; iteration order is abstracted by first-occurrence
deduplication of the accumulated lists). -/
def systemsForAgent (agent_id : String) : List String :=
  if strContains agent_id "product" then ["POS", "APP", "MENU_BOARD", "INVENTORY"]
  else if strContains agent_id "pricing" then ["POS", "APP", "PRICING"]
  else if strContains agent_id "marketing" then ["POS", "APP", "MARKETING", "CRM"]
  else if strContains agent_id "analytics" then ["ANALYTICS"]
  else if strContains agent_id "supply" then ["INVENTORY"]
  else []

/-- `MasterAgent._estimate_impact`. -/
def estimateImpact (agents : List (String × SubAgent)) (intent : IntentAnalysis)
    (plan : ExecutionPlan) : ImpactEstimate :=
  let entities := intent.entities
  let region := entRegion entities
  let base_stores := (dget REGION_STORE_COUNT region).getD 2847
  let affected_stores := entNat entities "store_count" base_stores
  let sku0 := entNat entities "sku_count" 1
  let affected_skus := if truthyGet entities "product_series" then max sku0 5 else sku0
  let affected_systems := dedupFirst (plan.agent_tasks.foldl (fun acc t =>
      match dget agents t.agent_id with
      | some _ => acc ++ systemsForAgent t.agent_id
      | none => acc) [])
  let base0 : Frac := ⟨plan.agent_tasks.length * 30, 1⟩
  let base := if 2000 < affected_stores then Frac.mul base0 ⟨3, 2⟩
              else if 1000 < affected_stores then Frac.mul base0 ⟨6, 5⟩ else base0
  let approval_roles := dedupFirst (plan.approval_points.foldl (fun acc aid =>
      match dget agents aid with
      | some agent => acc ++ agent.requires_approval_from
      | none => acc) [])
  { affected_stores := affected_stores, affected_skus := affected_skus,
    affected_systems := affected_systems, estimated_duration_minutes := base,
    requires_approval := !plan.approval_points.isEmpty,
    approval_roles := approval_roles, region := region }

/-- One entry of the `_build_execution_steps_preview` result. -/
structure StepPreview where
  step : Nat
  name : String
  system : String
  duration : String
  deriving Inhabited

/-- The per-agent step blocks of `_build_execution_steps_preview`,
returning the steps and the next step number. -/
def stepsForAgent (agent_id : String) (n : Nat) : List StepPreview × Nat :=
  if strContains agent_id "product" then
    ([⟨n, "创建SKU", "INVENTORY", "~30s"⟩, ⟨n + 1, "配置POS菜单", "POS", "~5min"⟩,
      ⟨n + 2, "同步App", "APP", "~2min"⟩, ⟨n + 3, "更新菜单屏", "MENU_BOARD", "~3min"⟩], n + 4)
  else if strContains agent_id "pricing" then
    ([⟨n, "计算价格", "PRICING", "~1min"⟩, ⟨n + 1, "更新POS价格", "POS", "~5min"⟩,
      ⟨n + 2, "同步App价格", "APP", "~2min"⟩], n + 3)
  else if strContains agent_id "marketing" then
    ([⟨n, "创建活动", "MARKETING", "~1min"⟩, ⟨n + 1, "配置POS折扣", "POS", "~3min"⟩,
      ⟨n + 2, "设置会员积分", "CRM", "~2min"⟩], n + 3)
  else if strContains agent_id "analytics" then
    ([⟨n, "获取销售数据", "ANALYTICS", "~2min"⟩, ⟨n + 1, "生成报告", "ANALYTICS", "~5min"⟩], n + 2)
  else ([], n)

/-- The task loop of `_build_execution_steps_preview`. -/
def buildStepsGo (agents : List (String × SubAgent)) :
    List AgentTaskCfg → Nat → List StepPreview × Nat
  | [], n => ([], n)
  | t :: rest, n =>
    match dget agents t.agent_id with
    | none => buildStepsGo agents rest n
    | some _ =>
      let r := stepsForAgent t.agent_id n
      let r2 := buildStepsGo agents rest r.2
      (r.1 ++ r2.1, r2.2)

/-- `MasterAgent._build_execution_steps_preview`: agent-specific step
blocks plus a final notification step when anything was generated. -/
def buildExecutionStepsPreview (agents : List (String × SubAgent))
    (plan : ExecutionPlan) : List StepPreview :=
  let r := buildStepsGo agents plan.agent_tasks 1
  if r.1.isEmpty then []
  else r.1 ++ [⟨r.2, "发送通知", "NOTIFICATION", "~1min"⟩]

/-- The dict `MasterAgent.preview` returns. -/
structure PreviewResult where
  intent : String
  confidence : Frac
  entities : Ctx
  estimated_impact : ImpactEstimate
  execution_steps : List StepPreview
  required_agents : List String
  suggested_workflows : List String
  deriving Inhabited

/-- `MasterAgent.preview`: the same `_analyze_intent` and
`_create_execution_plan` calls as `process`, then impact estimation and
the step preview; no workflow is executed and no component state is
written, so the state passes through unchanged. -/
def MasterAgent.preview (ee : EntityExtract) (st : MasterState)
    (user_input : String) : PreviewResult × MasterState :=
  let ia := analyzeIntent st.mgr.agents ee user_input
  let plan := createExecutionPlan st.mgr.agents "plan" ia
  ({ intent := ia.intent_type, confidence := ia.confidence,
     entities := ia.entities,
     estimated_impact := estimateImpact st.mgr.agents ia plan,
     execution_steps := buildExecutionStepsPreview st.mgr.agents plan,
     required_agents := ia.required_agents,
     suggested_workflows := ia.suggested_workflows }, st)

/-! ### Basic lemmas about the dictionary model -/

theorem dget_dset_self {α : Type} (m : List (String × α)) (k : String) (v : α) :
    dget (dset m k v) k = some v := by
  induction m with
  | nil => simp [dset, dget]
  | cons kv rest ih =>
    by_cases h : kv.1 = k
    · simp [dset, dget, h]
    · cases kv with
      | mk k1 v1 =>
        simp only [dset, dget]
        simp only [Prod.fst] at h
        rw [if_neg h, dget, if_neg h]
        exact ih

theorem any_false {l : List String} {f : String → Bool}
    (h : ∀ x ∈ l, f x = false) : l.any f = false := by
  induction l with
  | nil => rfl
  | cons x xs ih =>
    simp only [List.any_cons, Bool.or_eq_false_iff]
    exact ⟨h x (by simp), ih (fun y hy => h y (by simp [hy]))⟩

/-! ### Basic lemmas about the engine's node handling -/

theorem getNode_mem {wf : Workflow} {nid : String} {node : WorkflowNode}
    (h : getNode wf nid = some node) : node ∈ wf.nodes :=
  List.mem_of_find?_eq_some h

theorem getNode_id {wf : Workflow} {nid : String} {node : WorkflowNode}
    (h : getNode wf nid = some node) : node.node_id = nid := by
  have := List.find?_some h
  simpa using this

theorem execNode_node_id (se : SkillExec) (node : WorkflowNode) (ctx : Ctx) :
    (execNode se node ctx).node_id = node.node_id := by
  unfold execNode
  cases node.node_type <;> rfl

theorem execNode_approval_status (se : SkillExec) (node : WorkflowNode) (ctx : Ctx)
    (h : node.node_type = .approval) :
    (execNode se node ctx).status = .awaiting_approval := by
  unfold execNode
  rw [h]

/-! ### Projections of the fuelled operations (defaults when fuel runs out) -/

/-- The execution record `WorkflowEngine.execute` returns. -/
def execResult (se : SkillExec) (st : EngineState) (fuel : Nat)
    (workflow_id : String) (params : Ctx) : WorkflowExecution :=
  ((WorkflowEngine.execute se st fuel workflow_id params).get!).1

/-- The engine state after `WorkflowEngine.execute`. -/
def execStateAfter (se : SkillExec) (st : EngineState) (fuel : Nat)
    (workflow_id : String) (params : Ctx) : EngineState :=
  ((WorkflowEngine.execute se st fuel workflow_id params).get!).2

/-- The task record `SubAgentManager.execute_task` returns. -/
def taskResult (se : SkillExec) (fuel : Nat) (st : ManagerState)
    (task_id : String) : SubAgentTask :=
  ((SubAgentManager.execute_task se fuel st task_id).get!).1

/-! ### Concrete fixtures used by witnesses and counterexamples -/

/-- A skill executor that always succeeds with empty output. -/
def okSkill : SkillExec := fun _ _ => { status := .success, output_result := some [] }

/-- A skill executor that always succeeds and outputs one binding. -/
def outSkill : SkillExec :=
  fun _ _ => { status := .success, output_result := some [("k", Val.vstr "v")] }

/-- A skill executor that always fails with a message. -/
def failSkill : SkillExec := fun _ _ => { status := .error, error := some "boom" }

/-- skill node n1 → approval node n2 → skill node n3. -/
def wfA : Workflow :=
  { id := "wf-a", display_name := "A流程", start_node := "n1",
    nodes := [ { node_id := "n1", node_type := .skill, skill_id := some "s1",
                 next_node := some "n2" },
               { node_id := "n2", node_type := .approval, approval_roles := ["boss"],
                 next_node := some "n3" },
               { node_id := "n3", node_type := .skill, skill_id := some "s2" } ] }

/-- An agent planning `wf-a` whenever the instruction mentions "go". -/
def agentA : SubAgent :=
  { id := "agent-a", display_name := "A专员",
    capabilities := [ { name := "c1", keywords := ["go"], workflows := ["wf-a"] } ],
    available_workflows := ["wf-a"] }

/-- Manager state holding `wfA` and `agentA`. -/
def mgr0 : ManagerState :=
  { engine := { workflows := [("wf-a", wfA)] }, agents := [("agent-a", agentA)] }

/-- A workflow whose designated start node does not exist. -/
def wfGhost : Workflow :=
  { id := "wf-g", display_name := "G", start_node := "ghost",
    nodes := [ { node_id := "g1", node_type := .skill, skill_id := some "s1" } ] }

/-- Engine state holding `wfGhost`. -/
def stGhost : EngineState := { workflows := [("wf-g", wfGhost)] }

/-- A one-node workflow whose next pointer loops back to itself. -/
def wfCyc : Workflow :=
  { id := "wf-c", display_name := "C", start_node := "c1",
    nodes := [ { node_id := "c1", node_type := .skill, skill_id := some "s1",
                 next_node := some "c1" } ] }

/-- Engine state holding `wfCyc`. -/
def stCyc : EngineState := { workflows := [("wf-c", wfCyc)] }

/-- A single successful skill node. -/
def wfOne : Workflow :=
  { id := "wf-1", display_name := "One", start_node := "m1",
    nodes := [ { node_id := "m1", node_type := .skill, skill_id := some "s1" } ] }

/-- Engine state holding `wfOne`. -/
def stOne : EngineState := { workflows := [("wf-1", wfOne)] }

/-- The single failing skill node of `wfErr` (no on-error redirect). -/
def q1Node : WorkflowNode :=
  { node_id := "q1", node_type := .skill, skill_id := some "s1" }

/-- A workflow consisting of the failing node `q1Node`. -/
def wfErr : Workflow :=
  { id := "wf-e", display_name := "E", start_node := "q1", nodes := [q1Node] }

/-- A blank execution record for node-step witnesses. -/
def eBlank : WorkflowExecution :=
  { execution_id := "exec-w", workflow_id := "wf-e", status := .running }

/-- pricing workflow: skill p1 → approval p2 → skill p3. -/
def wfPA : Workflow :=
  { id := "wf-pa", display_name := "价格", start_node := "p1",
    nodes := [ { node_id := "p1", node_type := .skill, skill_id := some "calc",
                 next_node := some "p2" },
               { node_id := "p2", node_type := .approval, approval_roles := ["财务总监"],
                 next_node := some "p3" },
               { node_id := "p3", node_type := .skill, skill_id := some "upd" } ] }

/-- Engine state holding `wfPA`. -/
def stPA : EngineState := { workflows := [("wf-pa", wfPA)] }

/-- A pricing agent that requires approval and plans `wf-pa` on pricing
keywords. -/
def pricingAgent : SubAgent :=
  { id := "pricing-agent", display_name := "定价Agent",
    capabilities := [ { name := "价格调整",
                        keywords := ["涨价", "降价", "调价", "价格", "定价"],
                        workflows := ["wf-pa"] } ],
    available_workflows := ["wf-pa"],
    requires_approval_from := ["财务总监", "区域总监"] }

/-- Master state holding the pricing agent and its workflow. -/
def master0 : MasterState :=
  { mgr := { engine := { workflows := [("wf-pa", wfPA)] },
             agents := [("pricing-agent", pricingAgent)] } }

/-- An entity extractor that finds nothing. -/
def eeNone : EntityExtract := fun _ => []

/-- An agent whose only capability keyword is "xyz". -/
def agentB : SubAgent :=
  { id := "agent-b", display_name := "B专员",
    capabilities := [ { name := "c1", keywords := ["xyz"], workflows := ["wf-a"] } ],
    available_workflows := ["wf-a"] }

/-- Manager state holding `agentB` (and `wfA` in the engine). -/
def mgrB : ManagerState :=
  { engine := { workflows := [("wf-a", wfA)] }, agents := [("agent-b", agentB)] }

/-! ### Structural lemmas about the main run loop -/

/-- Fields the main loop never writes: every non-timeout outcome keeps
the execution's `input_params` and `pending_approval` exactly as they
were when the loop started. -/
theorem runLoop_preserve (se : SkillExec) (wf : Workflow) :
    ∀ (fuel : Nat) (cur : Option String) (e : WorkflowExecution),
      (∀ e1, runLoop se wf fuel cur e = .done e1 →
         e1.input_params = e.input_params ∧ e1.pending_approval = e.pending_approval) ∧
      (∀ e1 msg, runLoop se wf fuel cur e = .failed e1 msg →
         e1.input_params = e.input_params ∧ e1.pending_approval = e.pending_approval) ∧
      (∀ e1 nid, runLoop se wf fuel cur e = .pausedAt e1 nid →
         e1.input_params = e.input_params ∧ e1.pending_approval = e.pending_approval) := by
  intro fuel
  induction fuel with
  | zero =>
    intro cur e
    refine ⟨?_, ?_, ?_⟩ <;> intro e1 <;> simp [runLoop]
  | succ n ih =>
    intro cur e
    cases cur with
    | none =>
      refine ⟨?_, ?_, ?_⟩
      · intro e1 h
        simp only [runLoop] at h
        cases h
        exact ⟨rfl, rfl⟩
      · intro e1 msg h
        simp only [runLoop] at h
        cases h
      · intro e1 nid h
        simp only [runLoop] at h
        cases h
    | some nid =>
      cases hg : getNode wf nid with
      | none =>
        refine ⟨?_, ?_, ?_⟩
        · intro e1 h
          simp only [runLoop, hg] at h
          cases h
          exact ⟨rfl, rfl⟩
        · intro e1 msg h
          simp only [runLoop, hg] at h
          cases h
        · intro e1 nid2 h
          simp only [runLoop, hg] at h
          cases h
      | some node =>
        refine ⟨?_, ?_, ?_⟩
        · intro e1 h
          simp only [runLoop, hg] at h
          split at h
          · cases h
          · split at h
            · split at h
              · have h2 := (ih _ _).1 e1 h
                exact h2
              · cases h
            · have h2 := (ih _ _).1 e1 h
              exact h2
        · intro e1 msg h
          simp only [runLoop, hg] at h
          split at h
          · cases h
          · split at h
            · split at h
              · have h2 := (ih _ _).2.1 e1 msg h
                exact h2
              · cases h
                exact ⟨rfl, rfl⟩
            · have h2 := (ih _ _).2.1 e1 msg h
              exact h2
        · intro e1 nid2 h
          simp only [runLoop, hg] at h
          split at h
          · cases h
            exact ⟨rfl, rfl⟩
          · split at h
            · split at h
              · have h2 := (ih _ _).2.2 e1 nid2 h
                exact h2
              · cases h
            · have h2 := (ih _ _).2.2 e1 nid2 h
              exact h2

/-- A workflow definition without approval gates. -/
def NoApprovalNodes (wf : Workflow) : Prop :=
  ∀ n ∈ wf.nodes, n.node_type ≠ .approval

/-- Without approval nodes the main loop can never pause. -/
theorem runLoop_no_pause (se : SkillExec) (wf : Workflow)
    (hna : NoApprovalNodes wf) :
    ∀ (fuel : Nat) (cur : Option String) (e e1 : WorkflowExecution) (nid : String),
      runLoop se wf fuel cur e ≠ .pausedAt e1 nid := by
  intro fuel
  induction fuel with
  | zero =>
    intro cur e e1 nid h
    simp [runLoop] at h
  | succ n ih =>
    intro cur e e1 nid h
    cases cur with
    | none => simp [runLoop] at h
    | some cnid =>
      cases hg : getNode wf cnid with
      | none => simp only [runLoop, hg] at h; cases h
      | some node =>
        simp only [runLoop, hg] at h
        split at h
        · rename_i hcond
          exact hna node (getNode_mem hg) hcond.1
        · split at h
          · split at h
            · exact ih _ _ _ _ h
            · cases h
          · exact ih _ _ _ _ h

/-- A prefix of the run that the spec's C3 scenario describes: from the
given node, every node until the approval gate is a non-approval node
whose execution succeeds and whose `next` pointer is set; the final node
is an approval gate.  The list collects the visited node ids, the last
argument is the approval node's id. -/
inductive ApprovalPath (se : SkillExec) (wf : Workflow) :
    String → Ctx → List String → String → Prop
  | stop {nid : String} {ctx : Ctx} {node : WorkflowNode}
      (hn : getNode wf nid = some node) (ht : node.node_type = .approval) :
      ApprovalPath se wf nid ctx [nid] nid
  | step {nid : String} {ctx : Ctx} {node : WorkflowNode} {nid2 : String}
      {ids : List String} {app : String}
      (hn : getNode wf nid = some node) (ht : node.node_type ≠ .approval)
      (hs : (execNode se node ctx).status = .success)
      (hnext : node.next_node = some nid2)
      (hrest : ApprovalPath se wf nid2
        (dupdate ctx (execNode se node ctx).output_data) ids app) :
      ApprovalPath se wf nid ctx (nid :: ids) app

/-- Running the main loop along an `ApprovalPath` pauses at the approval
node and appends exactly one node execution per visited node, in
traversal order. -/
theorem runLoop_approval_path (se : SkillExec) (wf : Workflow)
    {nid : String} {ctx : Ctx} {ids : List String} {app : String}
    (hpath : ApprovalPath se wf nid ctx ids app) :
    ∀ (fuel : Nat), ids.length ≤ fuel →
    ∀ (e : WorkflowExecution), e.context = ctx →
    ∃ e1, runLoop se wf fuel (some nid) e = .pausedAt e1 app ∧
      e1.node_executions.map (fun ne => ne.node_id) =
        e.node_executions.map (fun ne => ne.node_id) ++ ids := by
  induction hpath with
  | stop hn ht =>
    rename_i nid1 ctx1 node1
    intro fuel hfuel e hctx
    cases fuel with
    | zero => simp at hfuel
    | succ n =>
      refine ⟨{ e with
                current_node := some nid1,
                node_executions := e.node_executions ++ [execNode se node1 e.context] },
              ?_, ?_⟩
      · simp only [runLoop, hn]
        rw [if_pos ⟨ht, by rw [hctx]; exact execNode_approval_status se node1 ctx1 ht⟩]
      · simp only [List.map_append, List.map_cons, List.map_nil]
        rw [execNode_node_id, getNode_id hn]
  | step hn ht hs hnext hrest ih =>
    rename_i nid1 ctx1 node1 nid2 ids1 app1
    intro fuel hfuel e hctx
    cases fuel with
    | zero => simp at hfuel
    | succ n =>
      have hn2 : ids1.length ≤ n := by
        simpa using Nat.lt_succ_iff.mp (Nat.lt_of_lt_of_le (by simp) hfuel)
      set e2 : WorkflowExecution :=
        { e with
          current_node := some nid1,
          node_executions := e.node_executions ++ [execNode se node1 e.context],
          context := dupdate e.context (execNode se node1 e.context).output_data }
        with he2
      have hc2 : e2.context = dupdate ctx1 (execNode se node1 ctx1).output_data := by
        rw [he2]; simp [hctx]
      obtain ⟨e1, hrun, hmap⟩ := ih n hn2 e2 hc2
      refine ⟨e1, ?_, ?_⟩
      · simp only [runLoop, hn]
        rw [if_neg (by intro hc; exact ht hc.1)]
        rw [if_neg (by rw [hctx, hs]; intro hc; cases hc)]
        rw [hnext]
        exact hrun
      · rw [hmap, he2]
        simp only [List.map_append, List.map_cons, List.map_nil]
        rw [execNode_node_id, getNode_id hn]
        simp

/-- Facts shared by every `execute` call that returns: the result keeps
the caller's params in `input_params`, its status is one of the three
loop outcomes, a pausing status comes from a pausing loop, and a
non-pausing result has no pending approval. -/
theorem execute_run_facts
    (se : SkillExec) (st : EngineState) (fuel : Nat) (wid : String) (wf : Workflow)
    (params : Ctx) (e : WorkflowExecution) (st2 : EngineState)
    (hwf : dget st.workflows wid = some wf)
    (hrun : WorkflowEngine.execute se st fuel wid params = some (e, st2)) :
    e.input_params = params ∧
    (e.status = .success ∨ e.status = .error ∨ e.status = .awaiting_approval) ∧
    (e.status = .awaiting_approval →
      ∃ e1 nid, runLoop se wf fuel (some wf.start_node)
        { execution_id := freshEid st, workflow_id := wf.id,
          workflow_name := wf.display_name, status := .running,
          input_params := params, context := params } = .pausedAt e1 nid) ∧
    (e.status ≠ .awaiting_approval → e.pending_approval = none) := by
  simp only [WorkflowEngine.execute, hwf] at hrun
  cases hro : runLoop se wf fuel (some wf.start_node)
      { execution_id := freshEid st, workflow_id := wf.id,
        workflow_name := wf.display_name, status := .running,
        input_params := params, context := params } with
  | done e1 =>
    rw [hro] at hrun
    simp only [finishRun, Option.some.injEq, Prod.mk.injEq] at hrun
    obtain ⟨he, _⟩ := hrun
    have hp := (runLoop_preserve se wf fuel (some wf.start_node) _).1 e1 hro
    subst he
    refine ⟨hp.1, Or.inl rfl, ?_, fun _ => hp.2⟩
    intro hs
    cases hs
  | failed e1 msg =>
    rw [hro] at hrun
    simp only [finishRun, Option.some.injEq, Prod.mk.injEq] at hrun
    obtain ⟨he, _⟩ := hrun
    have hp := (runLoop_preserve se wf fuel (some wf.start_node) _).2.1 e1 msg hro
    subst he
    refine ⟨hp.1, Or.inr (Or.inl rfl), ?_, fun _ => hp.2⟩
    intro hs
    cases hs
  | pausedAt e1 nid =>
    rw [hro] at hrun
    simp only [finishRun, Option.some.injEq, Prod.mk.injEq] at hrun
    obtain ⟨he, _⟩ := hrun
    have hp := (runLoop_preserve se wf fuel (some wf.start_node) _).2.2 e1 nid hro
    subst he
    refine ⟨hp.1, Or.inr (Or.inr rfl), fun _ => ⟨e1, nid, rfl⟩, ?_⟩
    intro hs
    exact absurd rfl hs
  | timeout =>
    rw [hro] at hrun
    simp [finishRun] at hrun

/-- Claim C3: an execution whose traversal passes only successful
non-approval nodes and then reaches an approval node returns with
status AWAITING_APPROVAL, `pending_approval` equal to that approval
node's id, and a node-execution log recording exactly the visited nodes
(the approval node included) in traversal order; nothing beyond the
approval node runs. -/
theorem execute_pauses_at_approval
    (se : SkillExec) (st : EngineState) (fuel : Nat) (wid : String)
    (wf : Workflow) (params : Ctx) (ids : List String) (app : String)
    (hwf : dget st.workflows wid = some wf)
    (hpath : ApprovalPath se wf wf.start_node params ids app)
    (hfuel : ids.length ≤ fuel) :
    (WorkflowEngine.execute se st fuel wid params).isSome = true ∧
    (execResult se st fuel wid params).status = .awaiting_approval ∧
    (execResult se st fuel wid params).pending_approval = some app ∧
    (execResult se st fuel wid params).node_executions.map (fun ne => ne.node_id) = ids := by
  obtain ⟨e1, hrun, hmap⟩ := runLoop_approval_path se wf hpath fuel hfuel
    { execution_id := freshEid st, workflow_id := wf.id,
      workflow_name := wf.display_name, status := .running,
      input_params := params, context := params } rfl
  have hex : WorkflowEngine.execute se st fuel wid params =
      some ({ e1 with status := .awaiting_approval, pending_approval := some app },
            insertExec st { e1 with status := .awaiting_approval, pending_approval := some app }) := by
    simp only [WorkflowEngine.execute, hwf, hrun, finishRun]
  refine ⟨by rw [hex]; rfl, ?_, ?_, ?_⟩
  · simp only [execResult, hex, Option.get!]
  · simp only [execResult, hex, Option.get!]
  · simp only [execResult, hex, Option.get!]
    simpa using hmap

/-- Witness for C3 on the pricing fixture: skill node p1 succeeds, the
run pauses at approval node p2, and the log is exactly [p1, p2]. -/
theorem execute_pauses_at_approval_witness :
    (WorkflowEngine.execute okSkill stPA 3 "wf-pa" []).isSome = true ∧
    (execResult okSkill stPA 3 "wf-pa" []).status = .awaiting_approval ∧
    (execResult okSkill stPA 3 "wf-pa" []).pending_approval = some "p2" ∧
    (execResult okSkill stPA 3 "wf-pa" []).node_executions.map (fun ne => ne.node_id) = ["p1", "p2"] :=
  execute_pauses_at_approval okSkill stPA 3 "wf-pa" wfPA [] ["p1", "p2"] "p2" rfl
    (ApprovalPath.step rfl (by decide) rfl rfl (ApprovalPath.stop rfl rfl))
    (by decide)

/-- Amended claim C7: for a registered workflow with no approval nodes,
any terminating `execute` run ends with status SUCCESS or ERROR and an
empty pending-approval field. -/
theorem no_approval_terminal_statuses
    (se : SkillExec) (st : EngineState) (fuel : Nat) (wid : String) (wf : Workflow)
    (params : Ctx) (e : WorkflowExecution) (st2 : EngineState)
    (hwf : dget st.workflows wid = some wf)
    (hna : NoApprovalNodes wf)
    (hrun : WorkflowEngine.execute se st fuel wid params = some (e, st2)) :
    (e.status = .success ∨ e.status = .error) ∧ e.pending_approval = none := by
  obtain ⟨_, hst, hpause, hpend⟩ := execute_run_facts se st fuel wid wf params e st2 hwf hrun
  have hne : e.status ≠ .awaiting_approval := by
    intro hs
    obtain ⟨e1, nid, hro⟩ := hpause hs
    exact runLoop_no_pause se wf hna fuel _ _ e1 nid hro
  refine ⟨?_, hpend hne⟩
  rcases hst with h | h | h
  · exact Or.inl h
  · exact Or.inr h
  · exact absurd h hne

/-- Witness for the amended C7 on the approval-free one-node workflow. -/
theorem no_approval_terminal_statuses_witness :
    ((execResult okSkill stOne 5 "wf-1" []).status = .success ∨
     (execResult okSkill stOne 5 "wf-1" []).status = .error) ∧
    (execResult okSkill stOne 5 "wf-1" []).pending_approval = none :=
  no_approval_terminal_statuses okSkill stOne 5 "wf-1" wfOne []
    (execResult okSkill stOne 5 "wf-1" []) (execStateAfter okSkill stOne 5 "wf-1" [])
    rfl (by simp only [NoApprovalNodes]; decide) rfl

/-- `execute` diverges on this engine state and workflow id: no amount
of fuel makes it return. -/
def ExecDiverges (se : SkillExec) (st : EngineState) (wid : String) (params : Ctx) : Prop :=
  ∀ fuel, WorkflowEngine.execute se st fuel wid params = none

/-- On the one-node cycle with a succeeding skill, the main loop never
finishes, whatever the fuel. -/
theorem runLoop_cyc (fuel : Nat) :
    ∀ e, runLoop okSkill wfCyc fuel (some "c1") e = .timeout := by
  induction fuel with
  | zero => intro e; rfl
  | succ n ih =>
    intro e
    calc runLoop okSkill wfCyc (n + 1) (some "c1") e
        = runLoop okSkill wfCyc n (some "c1")
            { e with
              current_node := some "c1",
              node_executions := e.node_executions ++
                [execNode okSkill { node_id := "c1", node_type := .skill,
                                    skill_id := some "s1", next_node := some "c1" } e.context],
              context := dupdate e.context [] } := rfl
      _ = .timeout := ih _

/-- Counterexample to C7 as stated: `wfCyc` has no approval node, the
spec declares its looping graph legal, yet `execute` never terminates
on it (the source's `while` loop runs forever). -/
theorem cycle_execute_diverges :
    NoApprovalNodes wfCyc ∧ ExecDiverges okSkill stCyc "wf-c" [] := by
  constructor
  · simp only [NoApprovalNodes]; decide
  · intro fuel
    show WorkflowEngine.execute okSkill stCyc fuel "wf-c" [] = none
    have h := runLoop_cyc fuel
      { execution_id := freshEid stCyc, workflow_id := wfCyc.id,
        workflow_name := wfCyc.display_name, status := .running,
        input_params := [], context := [] }
    have hu : WorkflowEngine.execute okSkill stCyc fuel "wf-c" [] =
        finishRun stCyc (runLoop okSkill wfCyc fuel (some "c1")
          { execution_id := freshEid stCyc, workflow_id := wfCyc.id,
            workflow_name := wfCyc.display_name, status := .running,
            input_params := [], context := [] }) := rfl
    rw [hu, h]
    rfl

/-- Claim C2 (divergence witness): executing a registered workflow whose
start node id does not exist returns SUCCESS with an empty
node-execution log and no error — a silent no-op, not the configuration
error the spec requires. -/
theorem missing_start_node_silently_succeeds :
    (WorkflowEngine.execute okSkill stGhost 5 "wf-g" []).isSome = true ∧
    (execResult okSkill stGhost 5 "wf-g" []).status = .success ∧
    (execResult okSkill stGhost 5 "wf-g" []).node_executions = [] ∧
    (execResult okSkill stGhost 5 "wf-g" []).error = none ∧
    (execResult okSkill stGhost 5 "wf-g" []).pending_approval = none :=
  ⟨rfl, rfl, rfl, rfl, rfl⟩

/-- Claim C4: `execute` on an unknown workflow id returns an ERROR
execution naming the id, with zero node executions, leaves the stored
execution registry unchanged, and the returned execution id is not
retrievable through `get_execution`.  (The freshness hypothesis is the
uuid-uniqueness assumption.) -/
theorem execute_unknown_workflow_not_found
    (se : SkillExec) (st : EngineState) (fuel : Nat) (wid : String) (params : Ctx)
    (hwf : dget st.workflows wid = none)
    (hfresh : dget st.executions (freshEid st) = none) :
    WorkflowEngine.execute se st fuel wid params =
      some (notFoundExec st wid, { st with efresh := st.efresh + 1 }) ∧
    (notFoundExec st wid).status = .error ∧
    (notFoundExec st wid).error = some ("Workflow \x27" ++ wid ++ "\x27 not found") ∧
    (notFoundExec st wid).node_executions = [] ∧
    ({ st with efresh := st.efresh + 1 } : EngineState).executions = st.executions ∧
    WorkflowEngine.get_execution { st with efresh := st.efresh + 1 }
      (notFoundExec st wid).execution_id = none := by
  refine ⟨?_, rfl, rfl, rfl, rfl, ?_⟩
  · simp only [WorkflowEngine.execute, hwf]
  · simpa [WorkflowEngine.get_execution, notFoundExec] using hfresh

/-- Witness for C4 at an empty registry. -/
theorem execute_unknown_workflow_not_found_witness :
    WorkflowEngine.execute okSkill stOne 3 "nope" [] =
      some (notFoundExec stOne "nope", { stOne with efresh := stOne.efresh + 1 }) ∧
    (notFoundExec stOne "nope").status = .error ∧
    (notFoundExec stOne "nope").error = some ("Workflow \x27nope\x27 not found") ∧
    (notFoundExec stOne "nope").node_executions = [] ∧
    ({ stOne with efresh := stOne.efresh + 1 } : EngineState).executions = stOne.executions ∧
    WorkflowEngine.get_execution { stOne with efresh := stOne.efresh + 1 }
      (notFoundExec stOne "nope").execution_id = none := by
  have h := execute_unknown_workflow_not_found okSkill stOne 3 "nope" [] rfl rfl
  simpa using h

/-- Claim C5: `resumeApproval` on an unknown execution id, or on an
execution that is not currently AWAITING_APPROVAL (for example a second
resume of an already-resolved execution), returns the source's `None`
and leaves the whole engine state — statuses, node executions, contexts,
approvers — untouched. -/
theorem approve_non_awaiting_is_noop
    (se : SkillExec) (st : EngineState) (fuel : Nat) (eid : String)
    (approved : Bool) (approver : String)
    (h : (dget st.executions eid).all
          (fun ex => ex.status != ExecutionStatus.awaiting_approval) = true) :
    WorkflowEngine.approve_execution se st fuel eid approved approver = some (none, st) := by
  unfold WorkflowEngine.approve_execution
  cases hx : dget st.executions eid with
  | none => rfl
  | some ex =>
    rw [hx] at h
    simp only [Option.all_some, bne_iff_ne, ne_eq] at h
    simp [h]

/-- An already-resolved execution record. -/
def exDone : WorkflowExecution :=
  { execution_id := "exec-0", workflow_id := "wf-1", status := .success }

/-- Engine state whose only stored execution is already resolved. -/
def stResolved : EngineState :=
  { workflows := [("wf-1", wfOne)], executions := [("exec-0", exDone)], efresh := 1 }

/-- Witness for C5: a second resume on the already-resolved `exec-0`
returns the `None` result and the state is untouched. -/
theorem approve_non_awaiting_is_noop_witness :
    WorkflowEngine.approve_execution okSkill stResolved 5 "exec-0" true "再批" =
      some (none, stResolved) :=
  approve_non_awaiting_is_noop okSkill stResolved 5 "exec-0" true "再批" rfl

/-- Claim C10: for a registered workflow, the run seeds the live context
from a copy of the caller's params, so whatever the nodes merge into the
context, the returned execution still reports the untouched params as
its `input_params`. -/
theorem execute_preserves_caller_params
    (se : SkillExec) (st : EngineState) (fuel : Nat) (wid : String) (wf : Workflow)
    (params : Ctx) (e : WorkflowExecution) (st2 : EngineState)
    (hwf : dget st.workflows wid = some wf)
    (hrun : WorkflowEngine.execute se st fuel wid params = some (e, st2)) :
    e.input_params = params :=
  (execute_run_facts se st fuel wid wf params e st2 hwf hrun).1

/-- Witness for C10: the node output "k" is merged into the context
(two bindings) while `input_params` still holds exactly the single
caller binding. -/
theorem execute_preserves_caller_params_witness :
    (execResult outSkill stOne 5 "wf-1" [("a", Val.vstr "b")]).input_params =
      [("a", Val.vstr "b")] ∧
    (execResult outSkill stOne 5 "wf-1" [("a", Val.vstr "b")]).context.length = 2 ∧
    ([("a", Val.vstr "b")] : Ctx).length = 1 :=
  ⟨execute_preserves_caller_params outSkill stOne 5 "wf-1" wfOne [("a", Val.vstr "b")]
      _ _ rfl rfl, rfl, rfl⟩

/-- The execution record after the loop appended one node execution
(lines 324-328 of the source). -/
def afterNode (e : WorkflowExecution) (nid : String)
    (ne : WorkflowNodeExecution) : WorkflowExecution :=
  { e with
    current_node := some nid,
    node_executions := e.node_executions ++ [ne] }

/-- Claim C6: stepping the main loop on a skill node. On a failed node
execution the loop continues at the node's `on-error` target when one is
declared and otherwise raises, which `finishRun` turns into a terminal
ERROR execution carrying the raised message (the node record's error, or
the engine's fallback text when the record carries none); on success the
node's output is merged into the context and the `next` pointer is
followed. -/
theorem action_node_error_routing
    (se : SkillExec) (wf : Workflow) (fuel : Nat) (nid : String)
    (node : WorkflowNode) (e : WorkflowExecution)
    (hn : getNode wf nid = some node) (ht : node.node_type = .skill) :
    ((execNode se node e.context).status = .error →
      (∀ oe, node.on_error = some oe →
        runLoop se wf (fuel + 1) (some nid) e =
          runLoop se wf fuel (some oe) (afterNode e nid (execNode se node e.context))) ∧
      (node.on_error = none →
        runLoop se wf (fuel + 1) (some nid) e =
          .failed (afterNode e nid (execNode se node e.context))
            ((execNode se node e.context).error.getD "Node execution failed"))) ∧
    ((execNode se node e.context).status = .success →
      runLoop se wf (fuel + 1) (some nid) e =
        runLoop se wf fuel node.next_node
          { afterNode e nid (execNode se node e.context) with
            context := dupdate e.context (execNode se node e.context).output_data }) ∧
    (∀ (st : EngineState) (e2 : WorkflowExecution) (msg : String),
      finishRun st (.failed e2 msg) =
        some ({ e2 with status := .error, error := some msg },
              insertExec st { e2 with status := .error, error := some msg })) := by
  have hnotap : ¬ (node.node_type = .approval ∧
      (execNode se node e.context).status = .awaiting_approval) := by
    rw [ht]
    rintro ⟨hc, _⟩
    cases hc
  refine ⟨?_, ?_, ?_⟩
  · intro herr
    constructor
    · intro oe hoe
      simp only [runLoop, hn]
      rw [if_neg hnotap, if_pos herr, hoe]
      rfl
    · intro hoe
      simp only [runLoop, hn]
      rw [if_neg hnotap, if_pos herr, hoe]
      rfl
  · intro hsucc
    simp only [runLoop, hn]
    rw [if_neg hnotap, if_neg (by rw [hsucc]; intro hc; cases hc)]
    rfl
  · intro st e2 msg
    rfl

/-- Witness for C6: one failing skill node with no on-error redirect. -/
theorem action_node_error_routing_witness :
    ((execNode failSkill q1Node eBlank.context).status = .error →
      (∀ oe, q1Node.on_error = some oe →
        runLoop failSkill wfErr (0 + 1) (some "q1") eBlank =
          runLoop failSkill wfErr 0 (some oe)
            (afterNode eBlank "q1" (execNode failSkill q1Node eBlank.context))) ∧
      (q1Node.on_error = none →
        runLoop failSkill wfErr (0 + 1) (some "q1") eBlank =
          .failed (afterNode eBlank "q1" (execNode failSkill q1Node eBlank.context))
            ((execNode failSkill q1Node eBlank.context).error.getD "Node execution failed"))) ∧
    ((execNode failSkill q1Node eBlank.context).status = .success →
      runLoop failSkill wfErr (0 + 1) (some "q1") eBlank =
        runLoop failSkill wfErr 0 q1Node.next_node
          { afterNode eBlank "q1" (execNode failSkill q1Node eBlank.context) with
            context := dupdate eBlank.context
              (execNode failSkill q1Node eBlank.context).output_data }) ∧
    (∀ (st : EngineState) (e2 : WorkflowExecution) (msg : String),
      finishRun st (.failed e2 msg) =
        some ({ e2 with status := .error, error := some msg },
              insertExec st { e2 with status := .error, error := some msg })) :=
  action_node_error_routing failSkill wfErr 0 "q1" q1Node eBlank rfl rfl

/-- When no capability keyword occurs in the lowered instruction, the
planning fold adds nothing. -/
theorem planWorkflows_empty (agent : SubAgent) (instruction : String)
    (hnk : ∀ cap ∈ agent.capabilities, ∀ kw ∈ cap.keywords,
        strContains (strLower instruction) kw = false) :
    planWorkflows agent instruction = [] := by
  simp only [planWorkflows]
  have hfold : ∀ (caps : List SubAgentCapability),
      (∀ cap ∈ caps, ∀ kw ∈ cap.keywords,
        strContains (strLower instruction) kw = false) →
      ∀ acc : List String,
      caps.foldl (fun planned cap =>
        if cap.keywords.any (fun kw => strContains (strLower instruction) kw) = true then
          planned ++ cap.workflows
        else planned) acc = acc := by
    intro caps
    induction caps with
    | nil => intro _ acc; rfl
    | cons c cs ih =>
      intro h acc
      simp only [List.foldl_cons]
      rw [if_neg (by
        rw [any_false (fun kw hkw => h c (by simp) kw hkw)]
        simp)]
      exact ih (fun cap hc kw hkw => h cap (by simp [hc]) kw hkw) acc
  rw [hfold agent.capabilities hnk []]
  rfl

/-- `execute_task` on a stored task whose plan is empty: the loop runs
zero workflows and the task completes SUCCESS at once. -/
theorem execute_task_empty_plan (se : SkillExec) (fuel : Nat)
    (st : ManagerState) (task_id : String) (task : SubAgentTask)
    (hget : dget st.tasks task_id = some task)
    (hplan : task.planned_workflows = []) :
    SubAgentManager.execute_task se fuel st task_id =
      some ({ task with
              status := .success,
              result := some (task.workflow_executions.length, task.context) },
            { st with
              tasks := dset st.tasks task_id
                { task with
                  status := .success,
                  result := some (task.workflow_executions.length, task.context) } }) := by
  simp only [SubAgentManager.execute_task, hget, hplan, runPlanned]
  rfl

/-- Claim C8: an agent none of whose capability keywords occur in the
instruction yields a task with an empty planned-workflow list, and
executing that task completes immediately with SUCCESS — not ERROR —
with zero workflow runs recorded. -/
theorem no_capability_match_empty_plan
    (se : SkillExec) (fuel : Nat) (st : ManagerState)
    (agent_id instruction : String) (context : Ctx) (agent : SubAgent)
    (ha : dget st.agents agent_id = some agent)
    (hnk : ∀ cap ∈ agent.capabilities, ∀ kw ∈ cap.keywords,
        strContains (strLower instruction) kw = false) :
    (SubAgentManager.create_task st agent_id instruction context).1.planned_workflows = [] ∧
    (SubAgentManager.execute_task se fuel
        (SubAgentManager.create_task st agent_id instruction context).2
        (SubAgentManager.create_task st agent_id instruction context).1.task_id).isSome = true ∧
    (taskResult se fuel (SubAgentManager.create_task st agent_id instruction context).2
        (SubAgentManager.create_task st agent_id instruction context).1.task_id).status = .success ∧
    (taskResult se fuel (SubAgentManager.create_task st agent_id instruction context).2
        (SubAgentManager.create_task st agent_id instruction context).1.task_id).workflow_executions = [] ∧
    (taskResult se fuel (SubAgentManager.create_task st agent_id instruction context).2
        (SubAgentManager.create_task st agent_id instruction context).1.task_id).result =
      some (0, context) := by
  have hplan := planWorkflows_empty agent instruction hnk
  have hpair : (SubAgentManager.create_task st agent_id instruction context).1.planned_workflows
      = planWorkflows agent instruction := by
    simp only [SubAgentManager.create_task, ha]
  have hget : dget (SubAgentManager.create_task st agent_id instruction context).2.tasks
      (SubAgentManager.create_task st agent_id instruction context).1.task_id =
      some (SubAgentManager.create_task st agent_id instruction context).1 := by
    simp only [SubAgentManager.create_task, ha]
    exact dget_dset_self _ _ _
  have hexec := execute_task_empty_plan se fuel
    (SubAgentManager.create_task st agent_id instruction context).2
    (SubAgentManager.create_task st agent_id instruction context).1.task_id
    (SubAgentManager.create_task st agent_id instruction context).1
    hget (hpair.trans hplan)
  have hwe : (SubAgentManager.create_task st agent_id instruction context).1.workflow_executions
      = [] := by
    simp only [SubAgentManager.create_task, ha]
  have hctx : (SubAgentManager.create_task st agent_id instruction context).1.context
      = context := by
    simp only [SubAgentManager.create_task, ha]
  refine ⟨hpair.trans hplan, ?_, ?_, ?_, ?_⟩
  · rw [hexec]; rfl
  · simp only [taskResult, hexec, Option.get!]
  · simp only [taskResult, hexec, Option.get!]
    exact hwe
  · simp only [taskResult, hexec, Option.get!]
    rw [hwe, hctx]
    rfl

/-- Witness for C8: `agentB` (keyword "xyz") against instruction
"hello". -/
theorem no_capability_match_empty_plan_witness :
    (SubAgentManager.create_task mgrB "agent-b" "hello" []).1.planned_workflows = [] ∧
    (SubAgentManager.execute_task okSkill 3
        (SubAgentManager.create_task mgrB "agent-b" "hello" []).2
        (SubAgentManager.create_task mgrB "agent-b" "hello" []).1.task_id).isSome = true ∧
    (taskResult okSkill 3 (SubAgentManager.create_task mgrB "agent-b" "hello" []).2
        (SubAgentManager.create_task mgrB "agent-b" "hello" []).1.task_id).status = .success ∧
    (taskResult okSkill 3 (SubAgentManager.create_task mgrB "agent-b" "hello" []).2
        (SubAgentManager.create_task mgrB "agent-b" "hello" []).1.task_id).workflow_executions = [] ∧
    (taskResult okSkill 3 (SubAgentManager.create_task mgrB "agent-b" "hello" []).2
        (SubAgentManager.create_task mgrB "agent-b" "hello" []).1.task_id).result =
      some (0, []) :=
  no_capability_match_empty_plan okSkill 3 mgrB "agent-b" "hello" [] agentB rfl (by decide)

/-- The C1 scenario, step 1: create a task for `agentA` whose
instruction matches the capability keyword "go". -/
def c1Create : SubAgentTask × ManagerState :=
  SubAgentManager.create_task mgr0 "agent-a" "let us go" []

/-- The C1 scenario, step 2: execute the task; workflow `wf-a` pauses at
its approval node n2. -/
def c1Exec : SubAgentTask × ManagerState :=
  (SubAgentManager.execute_task okSkill 10 c1Create.2 c1Create.1.task_id).get!

/-- The C1 scenario, step 3: approve the paused task. -/
def c1Approve : Option SubAgentTask × ManagerState :=
  (SubAgentManager.approve_task okSkill 10 c1Exec.2 c1Create.1.task_id true "boss").get!

/-- Claim C1 (divergence witness): approving the paused task resumes the
paused execution `exec-0` to SUCCESS (log n1, n2, n3), but then
`approve_task` re-enters `execute_task`, which restarts the WHOLE
planned-workflow list: a fresh execution `exec-1` re-runs the already
completed node n1 from scratch and pauses at the same approval node n2
again, leaving the task AWAITING_APPROVAL instead of resuming at the
paused workflow and finishing. -/
theorem approve_task_restarts_whole_plan :
    c1Exec.1.status = .awaiting_approval ∧
    c1Exec.1.workflow_executions = ["exec-0"] ∧
    (WorkflowEngine.get_execution c1Approve.2.engine "exec-0").map
        (fun ex => (ex.status, ex.node_executions.map (fun ne => ne.node_id))) =
      some (.success, ["n1", "n2", "n3"]) ∧
    c1Approve.1.map (fun t => t.status) = some .awaiting_approval ∧
    c1Approve.1.map (fun t => t.workflow_executions) = some ["exec-0", "exec-1"] ∧
    (WorkflowEngine.get_execution c1Approve.2.engine "exec-1").map
        (fun ex => (ex.status, ex.node_executions.map (fun ne => ne.node_id))) =
      some (.awaiting_approval, ["n1", "n2"]) :=
  ⟨rfl, rfl, rfl, rfl, rfl, rfl⟩

/-- Claim C9: `preview` runs the same `_analyze_intent` and
`_create_execution_plan` pipeline as `process`: the session stored by
`process` carries exactly the intent analysis and execution plan (agent
instructions, priorities, approval points included) that `preview`
computes and reports for the same input and starting state, and
`preview` executes nothing — its state is returned unchanged. -/
theorem preview_shares_process_planning
    (se : SkillExec) (ee : EntityExtract) (fuel : Nat) (st : MasterState)
    (user_input : String) (sess : MasterAgentSession) (st2 : MasterState)
    (hrun : MasterAgent.process se ee fuel st user_input = some (sess, st2)) :
    sess.intent_analysis = some (analyzeIntent st.mgr.agents ee user_input) ∧
    sess.execution_plan = some (createExecutionPlan st.mgr.agents "plan"
      (analyzeIntent st.mgr.agents ee user_input)) ∧
    (MasterAgent.preview ee st user_input).1.intent =
      (analyzeIntent st.mgr.agents ee user_input).intent_type ∧
    (MasterAgent.preview ee st user_input).1.confidence =
      (analyzeIntent st.mgr.agents ee user_input).confidence ∧
    (MasterAgent.preview ee st user_input).1.entities =
      (analyzeIntent st.mgr.agents ee user_input).entities ∧
    (MasterAgent.preview ee st user_input).1.required_agents =
      (analyzeIntent st.mgr.agents ee user_input).required_agents ∧
    (MasterAgent.preview ee st user_input).1.suggested_workflows =
      (analyzeIntent st.mgr.agents ee user_input).suggested_workflows ∧
    (MasterAgent.preview ee st user_input).1.estimated_impact =
      estimateImpact st.mgr.agents (analyzeIntent st.mgr.agents ee user_input)
        (createExecutionPlan st.mgr.agents "plan"
          (analyzeIntent st.mgr.agents ee user_input)) ∧
    (MasterAgent.preview ee st user_input).1.execution_steps =
      buildExecutionStepsPreview st.mgr.agents
        (createExecutionPlan st.mgr.agents "plan"
          (analyzeIntent st.mgr.agents ee user_input)) ∧
    (MasterAgent.preview ee st user_input).2 = st := by
  simp only [MasterAgent.process] at hrun
  cases h4 : runTasks se fuel
      (dispatchToAgents st.mgr
        (createExecutionPlan st.mgr.agents "plan" (analyzeIntent st.mgr.agents ee user_input))
        (analyzeIntent st.mgr.agents ee user_input).entities).1
      (dispatchToAgents st.mgr
        (createExecutionPlan st.mgr.agents "plan" (analyzeIntent st.mgr.agents ee user_input))
        (analyzeIntent st.mgr.agents ee user_input).entities).2
      [] with
  | none =>
    rw [h4] at hrun
    cases hrun
  | some p =>
    obtain ⟨mgr2, pending⟩ := p
    rw [h4] at hrun
    simp only [Option.some.injEq, Prod.mk.injEq] at hrun
    obtain ⟨hsess, _⟩ := hrun
    refine ⟨?_, ?_, rfl, rfl, rfl, rfl, rfl, rfl, rfl, rfl⟩
    · rw [← hsess]
      by_cases hc : pending.isEmpty <;> simp [hc]
    · rw [← hsess]
      by_cases hc : pending.isEmpty <;> simp [hc]

/-- The session and state `process` produces on the C9 witness input
(a pricing request that pauses for approval). -/
def c9Proc : MasterAgentSession × MasterState :=
  (MasterAgent.process okSkill eeNone 20 master0 "华东区调价5").get!

/-- Witness for C9 on a concrete pricing request against `master0`. -/
theorem preview_shares_process_planning_witness :
    MasterAgent.process okSkill eeNone 20 master0 "华东区调价5" =
      some (c9Proc.1, c9Proc.2) ∧
    (c9Proc.1.intent_analysis = some (analyzeIntent master0.mgr.agents eeNone "华东区调价5") ∧
     c9Proc.1.execution_plan = some (createExecutionPlan master0.mgr.agents "plan"
       (analyzeIntent master0.mgr.agents eeNone "华东区调价5")) ∧
     (MasterAgent.preview eeNone master0 "华东区调价5").1.intent =
       (analyzeIntent master0.mgr.agents eeNone "华东区调价5").intent_type ∧
     (MasterAgent.preview eeNone master0 "华东区调价5").1.confidence =
       (analyzeIntent master0.mgr.agents eeNone "华东区调价5").confidence ∧
     (MasterAgent.preview eeNone master0 "华东区调价5").1.entities =
       (analyzeIntent master0.mgr.agents eeNone "华东区调价5").entities ∧
     (MasterAgent.preview eeNone master0 "华东区调价5").1.required_agents =
       (analyzeIntent master0.mgr.agents eeNone "华东区调价5").required_agents ∧
     (MasterAgent.preview eeNone master0 "华东区调价5").1.suggested_workflows =
       (analyzeIntent master0.mgr.agents eeNone "华东区调价5").suggested_workflows ∧
     (MasterAgent.preview eeNone master0 "华东区调价5").1.estimated_impact =
       estimateImpact master0.mgr.agents (analyzeIntent master0.mgr.agents eeNone "华东区调价5")
         (createExecutionPlan master0.mgr.agents "plan"
           (analyzeIntent master0.mgr.agents eeNone "华东区调价5")) ∧
     (MasterAgent.preview eeNone master0 "华东区调价5").1.execution_steps =
       buildExecutionStepsPreview master0.mgr.agents
         (createExecutionPlan master0.mgr.agents "plan"
           (analyzeIntent master0.mgr.agents eeNone "华东区调价5")) ∧
     (MasterAgent.preview eeNone master0 "华东区调价5").2 = master0) :=
  ⟨by rfl, preview_shares_process_planning okSkill eeNone 20 master0 "华东区调价5"
      c9Proc.1 c9Proc.2 (by rfl)⟩
